import Mathlib

/-!
Verification of the log-drain ingestion endpoint in backend/http/logging.go.

The file shallowly embeds the two HTTP handlers `HandleFirehoseLog` (Drain-A)
and `HandleJSONLog` (Drain-B) together with the wire-format machinery they
rely on: JSON text parsing with Go encoding/json unmarshal semantics, standard
base64 decoding, the gzip member-header scan performed by gzip.NewReader, and
the numeric/text coercions of strconv and the timestamp rendering.

External collaborators are explicit parameters of the handlers:
  - `inflate` stands for the DEFLATE body decoding done by io.ReadAll on a
    *gzip.Reader after the member header has been consumed;
  - `fromVerboseID` stands for the tenant-id codec model.FromVerboseID
    (repository code that is not part of the sources under study);
  - `sink` stands for hlog.SubmitHTTPLog, deciding acceptance of each call;
  - `freshId` stands for the uuid.New().String() value drawn by the request;
  - `now` stands for time.Now().UnixMilli().

Modelling notes on exactness:
  - JSON numbers are modelled as exact integers.  Every number literal
    occurring in this development is an integer that float64 represents
    exactly, so the float64 detour taken by encoding/json is value-preserving
    here; fractional or exponent literals are outside the model.
  - Byte strings are modelled as Lean strings whose characters are the byte
    values (always below 256 when produced by the base64 decoder).
-/

set_option maxHeartbeats 4000000
set_option maxRecDepth 8000

/-- JSON values as produced by Go encoding/json, with numbers restricted to
exact integers (see the header note). -/
inductive Json where
  | null
  | bool (b : Bool)
  | num (n : Int)
  | str (s : String)
  | arr (elems : List Json)
  | obj (fields : List (String × Json))

/-- Characters that Go encoding/json skips between tokens. -/
def isJsonWs (c : Char) : Bool :=
  c == ' ' || c == '\t' || c == '\n' || c == '\r'

/-- Drop leading JSON whitespace. -/
def skipWs : List Char → List Char
  | [] => []
  | c :: cs => if isJsonWs c then skipWs cs else c :: cs

/-- Value of a hexadecimal digit. -/
def hexVal (c : Char) : Option Nat :=
  if '0' ≤ c ∧ c ≤ '9' then some (c.toNat - 48)
  else if 'a' ≤ c ∧ c ≤ 'f' then some (c.toNat - 87)
  else if 'A' ≤ c ∧ c ≤ 'F' then some (c.toNat - 55)
  else none

/-- Parse the remainder of a JSON string literal (the opening quote already
consumed), returning the decoded characters and the rest of the input.
Escape handling follows Go encoding/json: the eight simple escapes plus
\uXXXX, with surrogate pairs combined and stray surrogates replaced by
U+FFFD; raw control characters below 0x20 are rejected. -/
def parseStringChars : Nat → List Char → Option (List Char × List Char)
  | 0, _ => none
  | _ + 1, [] => none
  | _ + 1, '"' :: rest => some ([], rest)
  | fuel + 1, '\\' :: rest =>
    match rest with
    | '"' :: r => (parseStringChars fuel r).map (fun p => ('"' :: p.1, p.2))
    | '\\' :: r => (parseStringChars fuel r).map (fun p => ('\\' :: p.1, p.2))
    | '/' :: r => (parseStringChars fuel r).map (fun p => ('/' :: p.1, p.2))
    | 'b' :: r => (parseStringChars fuel r).map (fun p => (Char.ofNat 8 :: p.1, p.2))
    | 'f' :: r => (parseStringChars fuel r).map (fun p => (Char.ofNat 12 :: p.1, p.2))
    | 'n' :: r => (parseStringChars fuel r).map (fun p => ('\n' :: p.1, p.2))
    | 'r' :: r => (parseStringChars fuel r).map (fun p => ('\r' :: p.1, p.2))
    | 't' :: r => (parseStringChars fuel r).map (fun p => ('\t' :: p.1, p.2))
    | 'u' :: h1 :: h2 :: h3 :: h4 :: r =>
      match hexVal h1, hexVal h2, hexVal h3, hexVal h4 with
      | some a, some b, some c, some d =>
        let v := ((a * 16 + b) * 16 + c) * 16 + d
        if 0xD800 ≤ v ∧ v ≤ 0xDBFF then
          match r with
          | '\\' :: 'u' :: g1 :: g2 :: g3 :: g4 :: r2 =>
            match hexVal g1, hexVal g2, hexVal g3, hexVal g4 with
            | some a2, some b2, some c2, some d2 =>
              let w := ((a2 * 16 + b2) * 16 + c2) * 16 + d2
              if 0xDC00 ≤ w ∧ w ≤ 0xDFFF then
                let u := 0x10000 + (v - 0xD800) * 0x400 + (w - 0xDC00)
                (parseStringChars fuel r2).map (fun p => (Char.ofNat u :: p.1, p.2))
              else
                (parseStringChars fuel r).map (fun p => (Char.ofNat 0xFFFD :: p.1, p.2))
            | _, _, _, _ =>
              (parseStringChars fuel r).map (fun p => (Char.ofNat 0xFFFD :: p.1, p.2))
          | _ =>
            (parseStringChars fuel r).map (fun p => (Char.ofNat 0xFFFD :: p.1, p.2))
        else if 0xDC00 ≤ v ∧ v ≤ 0xDFFF then
          (parseStringChars fuel r).map (fun p => (Char.ofNat 0xFFFD :: p.1, p.2))
        else
          (parseStringChars fuel r).map (fun p => (Char.ofNat v :: p.1, p.2))
      | _, _, _, _ => none
    | _ => none
  | fuel + 1, c :: rest =>
    if c.toNat < 32 then none
    else (parseStringChars fuel rest).map (fun p => (c :: p.1, p.2))

/-- Split off a run of decimal digits. -/
def takeDigits : List Char → List Char × List Char
  | [] => ([], [])
  | c :: cs =>
    if '0' ≤ c ∧ c ≤ '9' then
      let p := takeDigits cs
      (c :: p.1, p.2)
    else ([], c :: cs)

/-- Numeric value of a digit run. -/
def digitsToNat (ds : List Char) : Nat :=
  ds.foldl (fun acc c => acc * 10 + (c.toNat - 48)) 0

/-- Parse a JSON number literal.  Only integer literals are supported (see the
header note); a fraction or exponent part makes the parse fail, and leading
zeros are rejected as in the JSON grammar. -/
def parseNumber (cs : List Char) : Option (Json × List Char) :=
  let (neg, cs1) :=
    match cs with
    | '-' :: r => (true, r)
    | r => (false, r)
  let (ds, rest) := takeDigits cs1
  match ds with
  | [] => none
  | d0 :: drest =>
    if d0 == '0' ∧ drest ≠ [] then none
    else
      match rest with
      | '.' :: _ => none
      | 'e' :: _ => none
      | 'E' :: _ => none
      | _ =>
        let n : Int := Int.ofNat (digitsToNat ds)
        some (.num (if neg then -n else n), rest)

mutual

/-- Parse one JSON value, Go json.Unmarshal token grammar. -/
def parseValue : Nat → List Char → Option (Json × List Char)
  | 0, _ => none
  | fuel + 1, cs =>
    match skipWs cs with
    | [] => none
    | 'n' :: 'u' :: 'l' :: 'l' :: rest => some (.null, rest)
    | 't' :: 'r' :: 'u' :: 'e' :: rest => some (.bool true, rest)
    | 'f' :: 'a' :: 'l' :: 's' :: 'e' :: rest => some (.bool false, rest)
    | '"' :: rest =>
      (parseStringChars (rest.length + 1) rest).map (fun p => (.str (String.mk p.1), p.2))
    | '[' :: rest =>
      match skipWs rest with
      | ']' :: r2 => some (.arr [], r2)
      | r2 => (parseArrayItems fuel r2).map (fun p => (.arr p.1, p.2))
    | '\x7b' :: rest =>
      match skipWs rest with
      | '\x7d' :: r2 => some (.obj [], r2)
      | r2 => (parseObjectItems fuel r2).map (fun p => (.obj p.1, p.2))
    | cs2 => parseNumber cs2

/-- Parse the items of a non-empty JSON array up to the closing bracket. -/
def parseArrayItems : Nat → List Char → Option (List Json × List Char)
  | 0, _ => none
  | fuel + 1, cs =>
    match parseValue fuel cs with
    | none => none
    | some (v, rest) =>
      match skipWs rest with
      | ',' :: r2 => (parseArrayItems fuel r2).map (fun p => (v :: p.1, p.2))
      | ']' :: r2 => some ([v], r2)
      | _ => none

/-- Parse the members of a non-empty JSON object up to the closing brace. -/
def parseObjectItems : Nat → List Char → Option (List (String × Json) × List Char)
  | 0, _ => none
  | fuel + 1, cs =>
    match skipWs cs with
    | '"' :: rest =>
      match parseStringChars (rest.length + 1) rest with
      | none => none
      | some (k, r1) =>
        match skipWs r1 with
        | ':' :: r2 =>
          match parseValue fuel r2 with
          | none => none
          | some (v, r3) =>
            match skipWs r3 with
            | ',' :: r4 =>
              (parseObjectItems fuel r4).map (fun p => ((String.mk k, v) :: p.1, p.2))
            | '\x7d' :: r4 => some ([(String.mk k, v)], r4)
            | _ => none
        | _ => none
    | _ => none

end

/-- Go json.Unmarshal applied to a whole input: one value surrounded by
optional whitespace, nothing else; an empty input is an error. -/
def parseJson (s : String) : Option Json :=
  match parseValue (s.data.length + 1) s.data with
  | some (j, rest) => if skipWs rest = [] then some j else none
  | none => none

/-- Value of a standard base64 alphabet character. -/
def b64Val (c : Char) : Option Nat :=
  if 'A' ≤ c ∧ c ≤ 'Z' then some (c.toNat - 65)
  else if 'a' ≤ c ∧ c ≤ 'z' then some (c.toNat - 71)
  else if '0' ≤ c ∧ c ≤ '9' then some (c.toNat + 4)
  else if c == '+' then some 62
  else if c == '/' then some 63
  else none

/-- Decode base64 quadruples as Go base64.StdEncoding does: full padding is
required, padding may only close the final quadruple, and (matching the
non-strict default decoder) unused trailing bits are ignored. -/
def b64Groups : List Char → Option (List Nat)
  | [] => some []
  | a :: b :: c :: d :: rest =>
    match b64Val a, b64Val b with
    | some va, some vb =>
      if d == '=' then
        if rest ≠ [] then none
        else if c == '=' then some [va * 4 + vb / 16]
        else
          match b64Val c with
          | some vc => some [va * 4 + vb / 16, vb % 16 * 16 + vc / 4]
          | none => none
      else
        match b64Val c, b64Val d with
        | some vc, some vd =>
          match b64Groups rest with
          | some bs =>
            let n := ((va * 64 + vb) * 64 + vc) * 64 + vd
            some (n / 65536 :: n / 256 % 256 :: n % 256 :: bs)
          | none => none
        | _, _ => none
    | _, _ => none
  | _ => none

/-- View a byte sequence as a string of byte-valued characters. -/
def bytesToString (bs : List Nat) : String :=
  String.mk (bs.map Char.ofNat)

/-- View a byte-valued string as its byte sequence. -/
def stringToBytes (s : String) : List Nat :=
  s.data.map Char.toNat

/-- Go base64.StdEncoding.DecodeString: carriage returns and newlines are
ignored, everything else must form padded quadruples. -/
def base64Decode (s : String) : Option String :=
  (b64Groups (s.data.filter (fun c => c ≠ '\r' ∧ c ≠ '\n'))).map bytesToString

/-- One bit step of the IEEE CRC-32 computation. -/
def crcStep (c : Nat) : Nat :=
  if c % 2 == 1 then c / 2 ^^^ 0xEDB88320 else c / 2

/-- Fold one byte into a CRC-32 state. -/
def crc32Byte (crc b : Nat) : Nat :=
  crcStep (crcStep (crcStep (crcStep (crcStep (crcStep (crcStep (crcStep (crc ^^^ b % 256))))))))

/-- IEEE CRC-32 of a byte sequence, as hash/crc32 computes it. -/
def crc32 (bs : List Nat) : Nat :=
  bs.foldl crc32Byte 0xFFFFFFFF ^^^ 0xFFFFFFFF

/-- Drop bytes up to and including the first zero byte, the layout of the
zero-terminated name and comment fields of a gzip member header. -/
def dropZeroTerminated : List Nat → Option (List Nat)
  | [] => none
  | 0 :: r => some r
  | _ :: r => dropZeroTerminated r

/-- Drop a counted field, failing when the input is too short. -/
def dropN (n : Nat) (l : List Nat) : Option (List Nat) :=
  if n ≤ l.length then some (l.drop n) else none

/-- The gzip member-header scan performed eagerly by gzip.NewReader: the ten
fixed bytes with the magic values 0x1f 0x8b and compression method 8, then the
optional extra, name, comment and header-CRC fields selected by the flag byte.
Returns the bytes following the header, or none when NewReader would fail
(which the firehose record loop treats as "not compressed"). -/
def gzipHeaderRest (bs : List Nat) : Option (List Nat) :=
  match bs with
  | b0 :: b1 :: b2 :: flg :: _ :: _ :: _ :: _ :: _ :: _ :: rest =>
    if b0 = 0x1f ∧ b1 = 0x8b ∧ b2 = 8 then
      let afterExtra :=
        if flg % 8 / 4 == 1 then
          match rest with
          | x1 :: x2 :: r => dropN (x1 + 256 * x2) r
          | _ => none
        else some rest
      match afterExtra with
      | none => none
      | some r1 =>
        match if flg % 16 / 8 == 1 then dropZeroTerminated r1 else some r1 with
        | none => none
        | some r2 =>
          match if flg % 32 / 16 == 1 then dropZeroTerminated r2 else some r2 with
          | none => none
          | some r3 =>
            if flg % 4 / 2 == 1 then
              match r3 with
              | c1 :: c2 :: r =>
                let hdr := bs.take (bs.length - r3.length)
                if crc32 hdr % 65536 = c1 + 256 * c2 then some r else none
              | _ => none
            else some r3
    else none
  | _ => none

/-- The per-record decompression sniff of HandleFirehoseLog: when the gzip
header scan fails the raw bytes are the working payload (absence of
compression is a normal case); when it succeeds the remainder of the stream
is handed to the DEFLATE decoder, whose failure fails the request. -/
def workingPayload (inflate : String → Option String) (data : String) : Option String :=
  match gzipHeaderRest (stringToBytes data) with
  | none => some data
  | some rest => inflate (bytesToString rest)

/-- Left-pad a number with zeros to the given width. -/
def padZ (width n : Nat) : String :=
  let s := toString n
  if s.length < width then String.mk (List.replicate (width - s.length) '0') ++ s else s

/-- Civil date from a day count relative to 1970-01-01 (proleptic Gregorian);
the classic era-based conversion. -/
def civilFromDays (z0 : Int) : Int × Nat × Nat :=
  let z := z0 + 719468
  let era := Int.fdiv z 146097
  let doe := (z - era * 146097).toNat
  let yoe := (doe - doe / 1460 + doe / 36524 - doe / 146096) / 365
  let doy := doe - (365 * yoe + yoe / 4 - yoe / 100)
  let mp := (5 * doy + 2) / 153
  let d := doy - (153 * mp + 2) / 5 + 1
  let m := if mp < 10 then mp + 3 else mp - 9
  let y := (yoe : Int) + era * 400
  (if m ≤ 2 then y + 1 else y, m, d)

/-- Modelled from the spec: the timestamp rendering used for every record,
an absolute instant in a fixed textual format with millisecond precision in
UTC (the hlog.TimestampFormat layout applied by time.Time.Format; the
formatting code itself is outside the sources under study). -/
def formatTimestamp (ms : Int) : String :=
  let days := Int.fdiv ms 86400000
  let rem := (ms - days * 86400000).toNat
  let ymd := civilFromDays days
  let y := ymd.1
  let secs := rem / 1000
  let yearStr := if 0 ≤ y then padZ 4 y.toNat else "-" ++ padZ 4 (-y).toNat
  yearStr ++ "-" ++ padZ 2 ymd.2.1 ++ "-" ++ padZ 2 ymd.2.2 ++ "T" ++
    padZ 2 (secs / 3600) ++ ":" ++ padZ 2 (secs / 60 % 60) ++ ":" ++ padZ 2 (secs % 60) ++
    "." ++ padZ 3 (rem % 1000) ++ "Z"

/-- Strip trailing zeros from a digit run. -/
def stripTrailingZeros (ds : List Char) : List Char :=
  (ds.reverse.dropWhile (fun c => c == '0')).reverse

/-- Go strconv.FormatFloat(v, 'E', -1, 64) on an integer value that float64
represents exactly: the shortest decimal significand in scientific notation
with an always-signed exponent of at least two digits.  Every number reaching
this function in the handlers is such an integer (see the header note); for
magnitudes above 2^53 the float64 rounding that Go would apply is not
modelled. -/
def formatFloatE (n : Int) : String :=
  if n = 0 then "0E+00"
  else
    let sign := if n < 0 then "-" else ""
    let ds := (toString n.natAbs).data
    let e := ds.length - 1
    let mant :=
      match stripTrailingZeros ds with
      | [] => "0"
      | d :: [] => String.mk [d]
      | d :: rest => String.mk [d] ++ "." ++ String.mk rest
    let estr := if e < 10 then "0" ++ toString e else toString e
    sign ++ mant ++ "E+" ++ estr

/-- String-keyed attribute maps, modelled as association lists with unique
keys; Go map iteration order is irrelevant to every observation made here
because all lookups go through `getAttr`. -/
abbrev Attrs := List (String × String)

/-- Go map assignment m[k] = v. -/
def setAttr : Attrs → String → String → Attrs
  | [], k, v => [(k, v)]
  | p :: m, k, v => if p.1 == k then (k, v) :: m else p :: setAttr m k v

/-- Go map lookup m[k]. -/
def getAttr (m : Attrs) (k : String) : Option String :=
  (m.find? (fun p => p.1 == k)).map (fun p => p.2)

/-- Assignment into a JSON field map (duplicate keys: the later value wins,
as when encoding/json decodes an object into a Go map). -/
def upsertJ : List (String × Json) → String → Json → List (String × Json)
  | [], k, v => [(k, v)]
  | p :: m, k, v => if p.1 == k then (k, v) :: m else p :: upsertJ m k v

/-- Lookup in a JSON field map. -/
def lookupJ (m : List (String × Json)) (k : String) : Option Json :=
  (m.find? (fun p => p.1 == k)).map (fun p => p.2)

/-- ASCII-lowercase a string. -/
def lowerStr (s : String) : String :=
  String.mk (s.data.map Char.toLower)

/-- The case-insensitive key matching encoding/json uses to pair JSON object
keys with struct fields. -/
def eqCI (a b : String) : Bool :=
  lowerStr a == lowerStr b

/-- Bounds check encoding/json applies when decoding a number into int64. -/
def int64Ok (n : Int) : Bool :=
  decide (-(2 ^ 63) ≤ n ∧ n < 2 ^ 63)

/-- The canonical log record hlog.Log handed to the sink.  Modelled from the
spec: the external shape has message, timestamp and level text fields plus a
string-keyed attribute map (the hlog package itself is outside the sources
under study). -/
structure Log where
  message : String := ""
  timestamp : String := ""
  level : String := ""
  attributes : Attrs := []
deriving DecidableEq

instance : Inhabited Log := ⟨{}⟩

/-- One element of the firehose records array. -/
structure FirehoseRecord where
  data : String := ""
deriving DecidableEq

instance : Inhabited FirehoseRecord := ⟨{}⟩

/-- The anonymous batch-envelope struct decoded by HandleFirehoseLog. -/
structure FirehoseEnvelope where
  requestId : String := ""
  timestamp : Int := 0
  records : List FirehoseRecord := []
deriving DecidableEq

instance : Inhabited FirehoseEnvelope := ⟨{}⟩

/-- One element of the cloudwatch logEvents array. -/
structure LogEvent where
  id : String := ""
  timestamp : Int := 0
  message : String := ""
deriving DecidableEq

instance : Inhabited LogEvent := ⟨{}⟩

/-- The anonymous cloudwatch sub-envelope struct sniffed per record. -/
structure CloudwatchPayload where
  messageType : String := ""
  owner : String := ""
  logGroup : String := ""
  logStream : String := ""
  subscriptionFilters : List String := []
  logEvents : List LogEvent := []
deriving DecidableEq

instance : Inhabited CloudwatchPayload := ⟨{}⟩

/-- Decode a JSON value into a string field as encoding/json does: a string
literal sets, null leaves the zero value, anything else is a type error. -/
def decodeStrField (cur : String) : Json → Option String
  | .str s => some s
  | .null => some cur
  | _ => none

/-- Decode a JSON value into an int64 field: an in-range integer literal
sets, null leaves the zero value, anything else is a type error. -/
def decodeInt64Field (cur : Int) : Json → Option Int
  | .num n => if int64Ok n then some n else none
  | .null => some cur
  | _ => none

/-- Decode one element of a []string slice: null leaves the zero value. -/
def decodeStrElem : Json → Option String
  | .str s => some s
  | .null => some ""
  | _ => none

/-- Decode one element of the records slice. -/
def parseFirehoseRecord (j : Json) : Option FirehoseRecord :=
  match j with
  | .null => some {}
  | .obj fs =>
    fs.foldlM
      (fun (r : FirehoseRecord) kv =>
        if eqCI kv.1 "Data" then (decodeStrField r.data kv.2).map (fun s => { r with data := s })
        else some r)
      {}
  | _ => none

/-- Decode the batch envelope as json.Unmarshal into the anonymous struct of
HandleFirehoseLog: the object's members are folded in order, keys matched
case-insensitively, unknown keys ignored; a top-level null leaves the zero
value and any other top-level shape is an error. -/
def parseFirehoseEnvelope (j : Json) : Option FirehoseEnvelope :=
  match j with
  | .null => some {}
  | .obj fs =>
    fs.foldlM
      (fun (e : FirehoseEnvelope) kv =>
        if eqCI kv.1 "RequestId" then
          (decodeStrField e.requestId kv.2).map (fun s => { e with requestId := s })
        else if eqCI kv.1 "Timestamp" then
          (decodeInt64Field e.timestamp kv.2).map (fun n => { e with timestamp := n })
        else if eqCI kv.1 "Records" then
          match kv.2 with
          | .arr xs => (xs.mapM parseFirehoseRecord).map (fun rs => { e with records := rs })
          | .null => some e
          | _ => none
        else some e)
      {}
  | _ => none

/-- Decode one element of the logEvents slice. -/
def parseLogEvent (j : Json) : Option LogEvent :=
  match j with
  | .null => some {}
  | .obj fs =>
    fs.foldlM
      (fun (ev : LogEvent) kv =>
        if eqCI kv.1 "Id" then (decodeStrField ev.id kv.2).map (fun s => { ev with id := s })
        else if eqCI kv.1 "Timestamp" then
          (decodeInt64Field ev.timestamp kv.2).map (fun n => { ev with timestamp := n })
        else if eqCI kv.1 "Message" then
          (decodeStrField ev.message kv.2).map (fun s => { ev with message := s })
        else some ev)
      {}
  | _ => none

/-- Decode the cloudwatch sub-envelope as json.Unmarshal into the anonymous
struct of HandleFirehoseLog; success of this decode is the per-record sniff
that selects the structured fan-out path. -/
def parseCloudwatch (j : Json) : Option CloudwatchPayload :=
  match j with
  | .null => some {}
  | .obj fs =>
    fs.foldlM
      (fun (cw : CloudwatchPayload) kv =>
        if eqCI kv.1 "MessageType" then
          (decodeStrField cw.messageType kv.2).map (fun s => { cw with messageType := s })
        else if eqCI kv.1 "Owner" then
          (decodeStrField cw.owner kv.2).map (fun s => { cw with owner := s })
        else if eqCI kv.1 "LogGroup" then
          (decodeStrField cw.logGroup kv.2).map (fun s => { cw with logGroup := s })
        else if eqCI kv.1 "LogStream" then
          (decodeStrField cw.logStream kv.2).map (fun s => { cw with logStream := s })
        else if eqCI kv.1 "SubscriptionFilters" then
          match kv.2 with
          | .arr xs => (xs.mapM decodeStrElem).map (fun ss => { cw with subscriptionFilters := ss })
          | .null => some cw
          | _ => none
        else if eqCI kv.1 "LogEvents" then
          match kv.2 with
          | .arr xs => (xs.mapM parseLogEvent).map (fun evs => { cw with logEvents := evs })
          | .null => some cw
          | _ => none
        else some cw)
      {}
  | _ => none

/-- Extract the tenant id from the X-Amz-Firehose-Common-Attributes header
JSON, as json.Unmarshal into the nested anonymous struct with json tags
commonAttributes / x-highlight-project. -/
def parseCommonAttrs (j : Json) : Option String :=
  match j with
  | .null => some ""
  | .obj fs =>
    fs.foldlM
      (fun (acc : String) kv =>
        if eqCI kv.1 "commonAttributes" then
          match kv.2 with
          | .null => some acc
          | .obj fs2 =>
            fs2.foldlM
              (fun (a2 : String) kv2 =>
                if eqCI kv2.1 "x-highlight-project" then decodeStrField a2 kv2.2
                else some a2)
              acc
          | _ => none
        else some acc)
      ""
  | _ => none

/-- One member step of the typed Drain-B body parse. -/
def hlogField (l : Log) (kv : String × Json) : Option Log :=
  if eqCI kv.1 "message" then
    (decodeStrField l.message kv.2).map (fun s => { l with message := s })
  else if eqCI kv.1 "timestamp" then
    (decodeStrField l.timestamp kv.2).map (fun s => { l with timestamp := s })
  else if eqCI kv.1 "level" then
    (decodeStrField l.level kv.2).map (fun s => { l with level := s })
  else some l

/-- Modelled from the spec: the typed parse of the Drain-B body into the
external hlog.Log shape recognizes the message, timestamp and level fields
by name (string values); the attribute map starts out empty, as the handler
allocates it fresh before decoding. -/
def parseHLog (j : Json) : Option Log :=
  match j with
  | .null => some {}
  | .obj fs => fs.foldlM hlogField {}
  | _ => none

/-- Decode the Drain-B body into a generic map[string]interface value map:
only a top-level object (or null, leaving the nil map) is accepted, and a
duplicated key keeps its later value. -/
def jsonToMap (j : Json) : Option (List (String × Json)) :=
  match j with
  | .null => some []
  | .obj fs => some (fs.foldl (fun m kv => upsertJ m kv.1 kv.2) [])
  | _ => none

/-- The value coercion of the harvest switch in HandleJSONLog.  A JSON string
is copied; a JSON number is rendered by strconv.FormatFloat(v, 'E', -1, 64),
because encoding/json decodes every JSON number into a float64 and therefore
the int64 arm of the source switch can never fire; booleans, nulls, arrays
and objects are dropped silently. -/
def coerceValue : Json → Option String
  | .str s => some s
  | .num n => some (formatFloatE n)
  | _ => none

/-- The attribute harvest loop of HandleJSONLog over the generic map. -/
def harvest (init : Attrs) (m : List (String × Json)) : Attrs :=
  m.foldl
    (fun acc kv =>
      match coerceValue kv.2 with
      | some s => setAttr acc kv.1 s
      | none => acc)
    init

/-- Header name carrying the tenant id. -/
def LogDrainProjectHeader : String := "x-highlight-project"

/-- Header name carrying the service name. -/
def LogDrainServiceHeader : String := "x-highlight-service"

/-- Value of semconv.ServiceNameKey in OpenTelemetry semantic conventions
v1.17.0, the attribute key HandleJSONLog overrides with the service header. -/
def serviceNameKey : String := "service.name"

/-- The error responses of the two handlers, one constructor per http.Error
call site (every one of them answers HTTP status 400). -/
inductive HttpErr where
  | outerGzip
  | envelopeJson
  | attrsJson
  | tenantId
  | recordBase64
  | recordGzip
  | sinkSubmit
  | bodyJson
deriving DecidableEq

/-- The attribute map given to every structured (cloudwatch) record. -/
def firehoseAttrs (cw : CloudwatchPayload) : Attrs :=
  [("service_name", "firehose"), ("message_type", cw.messageType), ("owner", cw.owner),
   ("log_group", cw.logGroup), ("log_stream", cw.logStream)]

/-- The canonical records produced from one working payload: a failed sniff
yields one raw record carrying the envelope timestamp, a successful sniff
yields one record per log event. -/
def recordLogs (envTs : Int) (payload : String) : List Log :=
  match (parseJson payload).bind parseCloudwatch with
  | none => [{ message := payload, timestamp := formatTimestamp envTs, level := "info" }]
  | some cw =>
    cw.logEvents.map
      (fun e =>
        { message := e.message, timestamp := formatTimestamp e.timestamp, level := "info",
          attributes := firehoseAttrs cw })

/-- Submit a run of records to the sink, stopping at the first rejection;
returns the next call index, the calls that were made (the rejected one
included) and whether all were accepted. -/
def submitSeq (sink : Nat → Nat → Log → Bool) (pid : Nat) :
    Nat → List Log → Nat × List (Nat × Log) × Bool
  | idx, [] => (idx, [], true)
  | idx, l :: ls =>
    if sink pid idx l then
      let rest := submitSeq sink pid (idx + 1) ls
      (rest.1, (pid, l) :: rest.2.1, rest.2.2)
    else (idx + 1, [(pid, l)], false)

/-- The per-record loop of HandleFirehoseLog: base64 decode, decompression
sniff, cloudwatch sniff and immediate submission, aborting the whole request
on the first failure of any stage while keeping the calls already made. -/
def runRecords (inflate : String → Option String) (sink : Nat → Nat → Log → Bool)
    (pid : Nat) (envTs : Int) :
    List FirehoseRecord → Nat → List (Nat × Log) × Option HttpErr
  | [], _ => ([], none)
  | r :: rs, idx =>
    match base64Decode r.data with
    | none => ([], some .recordBase64)
    | some data =>
      match workingPayload inflate data with
      | none => ([], some .recordGzip)
      | some payload =>
        let s := submitSeq sink pid idx (recordLogs envTs payload)
        if s.2.2 then
          let rest := runRecords inflate sink pid envTs rs s.1
          (s.2.1 ++ rest.1, rest.2)
        else (s.2.1, some .sinkSubmit)

/-- Outcome of HandleFirehoseLog: the 200 response body is determined by the
requestId echoed and the acknowledgement clock value. -/
inductive FirehoseResult where
  | ok (requestId : String) (timestamp : Int)
  | error (e : HttpErr)
deriving DecidableEq

/-- Shallow embedding of HandleFirehoseLog (Drain-A).  The outcome pairs the
HTTP response with the sequence of sink-submit calls the handler made, each
call carrying the resolved project id and the record. -/
def handleFirehoseLog (inflate : String → Option String)
    (fromVerboseID : String → Option Nat) (sink : Nat → Nat → Log → Bool)
    (freshId : String) (now : Int)
    (contentEncoding : String) (attrsHeader : String) (body : String) :
    FirehoseResult × List (Nat × Log) :=
  let bodyOpt : Option String :=
    if contentEncoding == "gzip" then
      match gzipHeaderRest (stringToBytes body) with
      | none => none
      | some rest => inflate (bytesToString rest)
    else some body
  match bodyOpt with
  | none => (.error .outerGzip, [])
  | some body2 =>
    match (parseJson body2).bind parseFirehoseEnvelope with
    | none => (.error .envelopeJson, [])
    | some lg =>
      let requestId := if lg.requestId == "" then freshId else lg.requestId
      match parseJson attrsHeader with
      | none => (.error .attrsJson, [])
      | some ja =>
        match parseCommonAttrs ja with
        | none => (.error .attrsJson, [])
        | some pidStr =>
          match fromVerboseID pidStr with
          | none => (.error .tenantId, [])
          | some projectID =>
            let run := runRecords inflate sink projectID lg.timestamp lg.records 0
            match run.2 with
            | some e => (.error e, run.1)
            | none => (.ok requestId now, run.1)

/-- Outcome of HandleJSONLog: a bare 200 or an error. -/
inductive JsonLogResult where
  | ok
  | error (e : HttpErr)
deriving DecidableEq

/-- Shallow embedding of HandleJSONLog (Drain-B): typed parse, generic
attribute harvest, tenant resolution, service-name enrichment, single
submit. -/
def handleJSONLog (fromVerboseID : String → Option Nat) (sink : Nat → Nat → Log → Bool)
    (projectHeader serviceHeader : String) (body : String) :
    JsonLogResult × List (Nat × Log) :=
  match parseJson body with
  | none => (.error .bodyJson, [])
  | some j =>
    match parseHLog j with
    | none => (.error .bodyJson, [])
    | some lg0 =>
      match jsonToMap j with
      | none => (.error .bodyJson, [])
      | some m =>
        let lg1 : Log := { lg0 with attributes := harvest lg0.attributes m }
        match fromVerboseID projectHeader with
        | none => (.error .tenantId, [])
        | some projectID =>
          let lg2 : Log := { lg1 with attributes := setAttr lg1.attributes serviceNameKey serviceHeader }
          if sink projectID 0 lg2 then (.ok, [(projectID, lg2)])
          else (.error .sinkSubmit, [(projectID, lg2)])

/-- Composite decode applied to one firehose record before the sniff: base64
then the decompression attempt; none marks a request-aborting failure. -/
def payloadText (inflate : String → Option String) (r : FirehoseRecord) : Option String :=
  (base64Decode r.data).bind (workingPayload inflate)

/-- Tenant codec instance used by the concrete runs below: only the opaque id
"p" decodes, to project 7. -/
def fvTest : String → Option Nat := fun s => if s == "p" then some 7 else none

/-- Sink instance accepting every call. -/
def sinkAccept : Nat → Nat → Log → Bool := fun _ _ _ => true

/-- Sink instance rejecting every call. -/
def sinkReject : Nat → Nat → Log → Bool := fun _ _ _ => false

/-- DEFLATE decoder instance rejecting every stream. -/
def inflateNone : String → Option String := fun _ => none

/-- Common-attributes header carrying tenant id "p". -/
def attrsHeaderTest : String :=
  "\x7b\"commonAttributes\":\x7b\"x-highlight-project\":\"p\"\x7d\x7d"

theorem getAttr_nil (k : String) : getAttr [] k = none := rfl

theorem getAttr_cons (p : String × String) (m : Attrs) (k : String) :
    getAttr (p :: m) k = if p.1 == k then some p.2 else getAttr m k := by
  by_cases h : p.1 == k <;> simp [getAttr, List.find?_cons, h]

theorem lookupJ_cons (p : String × Json) (m : List (String × Json)) (k : String) :
    lookupJ (p :: m) k = if p.1 == k then some p.2 else lookupJ m k := by
  by_cases h : p.1 == k <;> simp [lookupJ, List.find?_cons, h]

theorem getAttr_setAttr_self (m : Attrs) (k v : String) :
    getAttr (setAttr m k v) k = some v := by
  induction m with
  | nil => simp [setAttr, getAttr_cons]
  | cons p m ih =>
    by_cases h : p.1 == k
    · simp [setAttr, h, getAttr_cons]
    · simp [setAttr, h, getAttr_cons, ih]

theorem getAttr_setAttr_ne (m : Attrs) (k k2 v : String) (h : k2 ≠ k) :
    getAttr (setAttr m k v) k2 = getAttr m k2 := by
  have hkk : ¬ (k == k2) := by simp [beq_iff_eq]; exact fun e => h e.symm
  induction m with
  | nil => simp [setAttr, getAttr_cons, getAttr_nil, hkk]
  | cons p m ih =>
    by_cases hp : p.1 == k
    · have hp2 : ¬ (p.1 == k2) := by
        simp only [beq_iff_eq] at hp ⊢
        rw [hp]; exact fun e => h e.symm
      simp [setAttr, hp, getAttr_cons, hkk, hp2]
    · simp [setAttr, hp, getAttr_cons, ih]

theorem lookupJ_not_mem (m : List (String × Json)) (k : String)
    (h : ∀ q ∈ m, q.1 ≠ k) : lookupJ m k = none := by
  induction m with
  | nil => rfl
  | cons p m ih =>
    have hp : ¬ (p.1 == k) := by simp [beq_iff_eq]; exact h p (by simp)
    rw [lookupJ_cons]
    simp only [hp, if_false]
    exact ih (fun q hq => h q (by simp [hq]))

theorem harvest_not_mem (m : List (String × Json)) (init : Attrs) (k : String)
    (h : ∀ q ∈ m, q.1 ≠ k) : getAttr (harvest init m) k = getAttr init k := by
  induction m generalizing init with
  | nil => rfl
  | cons p m ih =>
    have hp : p.1 ≠ k := h p (by simp)
    have hrest : ∀ q ∈ m, q.1 ≠ k := fun q hq => h q (by simp [hq])
    cases hc : coerceValue p.2 with
    | none => simpa [harvest, hc] using ih init hrest
    | some s =>
      have := ih (setAttr init p.1 s) hrest
      simpa [harvest, hc, getAttr_setAttr_ne init p.1 k s (fun e => hp e.symm)] using this

/-- Pointwise description of the attribute harvest on a duplicate-free field
map: a key's harvested value is exactly the coercion of its JSON value. -/
theorem harvest_getAttr (m : List (String × Json)) (init : Attrs) (k : String)
    (hnd : (m.map (fun p => p.1)).Nodup) :
    getAttr (harvest init m) k =
      match lookupJ m k with
      | some v => match coerceValue v with
        | some s => some s
        | none => getAttr init k
      | none => getAttr init k := by
  induction m generalizing init with
  | nil => rfl
  | cons p m ih =>
    simp only [List.map_cons, List.nodup_cons] at hnd
    obtain ⟨hkn, hnd2⟩ := hnd
    by_cases hk : p.1 == k
    · have hkeq : p.1 = k := by simpa [beq_iff_eq] using hk
      have hnomem : ∀ q ∈ m, q.1 ≠ k := by
        intro q hq he
        exact hkn (by rw [hkeq, ← he]; exact List.mem_map_of_mem _ hq)
      cases hc : coerceValue p.2 with
      | none =>
        rw [lookupJ_cons]
        simp only [hk, if_true, hc]
        simpa [harvest, hc] using harvest_not_mem m init k hnomem
      | some s =>
        rw [lookupJ_cons]
        simp only [hk, if_true, hc]
        have h2 := harvest_not_mem m (setAttr init p.1 s) k hnomem
        have h3 : harvest init (p :: m) = harvest (setAttr init p.1 s) m := by
          simp [harvest, hc]
        rw [h3, h2, hkeq, getAttr_setAttr_self]
    · rw [lookupJ_cons]
      simp only [hk, if_false]
      cases hc : coerceValue p.2 with
      | none => simpa [harvest, hc] using ih init hnd2
      | some s =>
        have hne : k ≠ p.1 := by
          intro e; exact hk (by simp [beq_iff_eq, e])
        have := ih (setAttr init p.1 s) hnd2
        rw [getAttr_setAttr_ne init p.1 k s hne] at this
        simpa [harvest, hc] using this

theorem upsertJ_cons_true (p : String × Json) (m : List (String × Json)) (k : String)
    (v : Json) (hp : (p.1 == k) = true) : upsertJ (p :: m) k v = (k, v) :: m := by
  simp [upsertJ, hp]

theorem upsertJ_cons_false (p : String × Json) (m : List (String × Json)) (k : String)
    (v : Json) (hp : (p.1 == k) = false) : upsertJ (p :: m) k v = p :: upsertJ m k v := by
  simp [upsertJ, hp]

theorem mem_keys_upsertJ (k : String) (v : Json) (a : String) :
    ∀ m : List (String × Json),
      a ∈ (upsertJ m k v).map (fun p => p.1) → a ∈ m.map (fun p => p.1) ∨ a = k := by
  intro m
  induction m with
  | nil =>
    intro h
    simp [upsertJ] at h
    exact Or.inr h
  | cons p m ih =>
    intro h
    cases hp : (p.1 == k) with
    | true =>
      rw [upsertJ_cons_true p m k v hp] at h
      simp only [List.map_cons, List.mem_cons] at h
      rcases h with h | h
      · exact Or.inr h
      · exact Or.inl (List.mem_cons_of_mem _ h)
    | false =>
      rw [upsertJ_cons_false p m k v hp] at h
      simp only [List.map_cons, List.mem_cons] at h
      rcases h with h | h
      · exact Or.inl (by rw [h]; exact List.mem_cons_self _ _)
      · rcases ih h with h2 | h2
        · exact Or.inl (List.mem_cons_of_mem _ h2)
        · exact Or.inr h2

theorem nodup_keys_upsertJ (k : String) (v : Json) :
    ∀ m : List (String × Json),
      (m.map (fun p => p.1)).Nodup → ((upsertJ m k v).map (fun p => p.1)).Nodup := by
  intro m
  induction m with
  | nil => intro _; simp [upsertJ]
  | cons p m ih =>
    intro h
    simp only [List.map_cons, List.nodup_cons] at h
    obtain ⟨hn, hnd⟩ := h
    cases hp : (p.1 == k) with
    | true =>
      have hpk : p.1 = k := by simpa [beq_iff_eq] using hp
      rw [upsertJ_cons_true p m k v hp]
      simp only [List.map_cons, List.nodup_cons]
      exact ⟨by rw [← hpk]; exact hn, hnd⟩
    | false =>
      rw [upsertJ_cons_false p m k v hp]
      simp only [List.map_cons, List.nodup_cons]
      refine ⟨fun hmem => ?_, ih hnd⟩
      rcases mem_keys_upsertJ k v p.1 m hmem with h2 | h2
      · exact hn h2
      · rw [h2] at hp
        simp at hp

theorem jsonToMap_nodup (j : Json) (m : List (String × Json)) (h : jsonToMap j = some m) :
    (m.map (fun p => p.1)).Nodup := by
  cases j with
  | null =>
    simp only [jsonToMap, Option.some.injEq] at h
    rw [← h]; simp
  | obj fs =>
    simp only [jsonToMap, Option.some.injEq] at h
    rw [← h]
    suffices aux : ∀ (fs2 acc : List (String × Json)),
        (acc.map (fun p => p.1)).Nodup →
        ((fs2.foldl (fun m2 kv => upsertJ m2 kv.1 kv.2) acc).map (fun p => p.1)).Nodup by
      exact aux fs [] (by simp)
    intro fs2
    induction fs2 with
    | nil => intro acc hacc; simpa using hacc
    | cons q fs2 ih => intro acc hacc; exact ih _ (nodup_keys_upsertJ q.1 q.2 acc hacc)
  | bool b => simp [jsonToMap] at h
  | num n => simp [jsonToMap] at h
  | str s => simp [jsonToMap] at h
  | arr xs => simp [jsonToMap] at h

theorem hlogField_attributes (l : Log) (kv : String × Json) (l2 : Log)
    (h : hlogField l kv = some l2) : l2.attributes = l.attributes := by
  unfold hlogField at h
  by_cases h1 : eqCI kv.1 "message" = true
  · rw [if_pos h1, Option.map_eq_some'] at h
    obtain ⟨s, _, h2⟩ := h
    rw [← h2]
  · rw [if_neg h1] at h
    by_cases h2 : eqCI kv.1 "timestamp" = true
    · rw [if_pos h2, Option.map_eq_some'] at h
      obtain ⟨s, _, h3⟩ := h
      rw [← h3]
    · rw [if_neg h2] at h
      by_cases h3 : eqCI kv.1 "level" = true
      · rw [if_pos h3, Option.map_eq_some'] at h
        obtain ⟨s, _, h4⟩ := h
        rw [← h4]
      · rw [if_neg h3] at h
        cases h
        rfl

theorem parseHLog_attributes (j : Json) (lg : Log) (h : parseHLog j = some lg) :
    lg.attributes = [] := by
  cases j with
  | null =>
    simp only [parseHLog, Option.some.injEq] at h
    rw [← h]
  | obj fs =>
    simp only [parseHLog] at h
    suffices aux : ∀ (fs2 : List (String × Json)) (l0 : Log), l0.attributes = [] →
        List.foldlM hlogField l0 fs2 = some lg → lg.attributes = [] by
      exact aux fs {} rfl h
    intro fs2
    induction fs2 with
    | nil =>
      intro l0 h0 hf
      simp only [List.foldlM_nil, Option.pure_def, Option.some.injEq] at hf
      rw [← hf]; exact h0
    | cons q fs2 ih =>
      intro l0 h0 hf
      rw [List.foldlM_cons] at hf
      cases hq : hlogField l0 q with
      | none =>
        rw [hq] at hf
        simp at hf
      | some l1 =>
        rw [hq] at hf
        exact ih l1 (by rw [hlogField_attributes l0 q l1 hq]; exact h0) hf
  | bool b => simp [parseHLog] at h
  | num n => simp [parseHLog] at h
  | str s => simp [parseHLog] at h
  | arr xs => simp [parseHLog] at h

theorem submitSeq_mem (sink : Nat → Nat → Log → Bool) (pid : Nat) :
    ∀ (ls : List Log) (idx : Nat) (x : Nat × Log),
      x ∈ (submitSeq sink pid idx ls).2.1 → x.2 ∈ ls := by
  intro ls
  induction ls with
  | nil =>
    intro idx x hx
    simp [submitSeq] at hx
  | cons l ls ih =>
    intro idx x hx
    by_cases hs : sink pid idx l
    · simp only [submitSeq, hs, if_true] at hx
      rcases List.mem_cons.mp hx with h | h
      · rw [h]; simp
      · exact List.mem_cons_of_mem _ (ih (idx + 1) x h)
    · simp only [submitSeq, hs, if_false] at hx
      rcases List.mem_cons.mp hx with h | h
      · rw [h]; simp
      · simp at h

theorem submitSeq_ofAll (sink : Nat → Nat → Log → Bool) (pid : Nat) :
    ∀ (ls : List Log) (idx : Nat),
      (∀ i l, ls[i]? = some l → sink pid (idx + i) l = true) →
      submitSeq sink pid idx ls = (idx + ls.length, ls.map (fun l => (pid, l)), true) := by
  intro ls
  induction ls with
  | nil => intro idx h; simp [submitSeq]
  | cons l ls ih =>
    intro idx h
    have h0 : sink pid idx l = true := by simpa using h 0 l (by simp)
    have ihh := ih (idx + 1) (fun i l2 hl2 => by
      have hres := h (i + 1) l2 (by simpa using hl2)
      have e : idx + 1 + i = idx + (i + 1) := by omega
      rw [e]; exact hres)
    have e2 : idx + (ls.length + 1) = idx + 1 + ls.length := by omega
    simp only [submitSeq, h0, if_true, ihh, List.map_cons, List.length_cons, e2]

theorem submitSeq_fail (sink : Nat → Nat → Log → Bool) (pid : Nat) :
    ∀ (ls : List Log) (idx k : Nat) (lk : Log),
      (∀ i l, i < k → ls[i]? = some l → sink pid (idx + i) l = true) →
      ls[k]? = some lk → sink pid (idx + k) lk = false →
      submitSeq sink pid idx ls =
        (idx + k + 1, (ls.take (k + 1)).map (fun l => (pid, l)), false) := by
  intro ls
  induction ls with
  | nil => intro idx k lk hacc hk hfk; simp at hk
  | cons l ls ih =>
    intro idx k lk hacc hk hfk
    cases k with
    | zero =>
      have hl : l = lk := by simpa using hk
      have hs : sink pid idx l = false := by rw [hl]; simpa using hfk
      simp [submitSeq, hs, List.take_succ_cons]
    | succ k2 =>
      have h0 : sink pid idx l = true := by simpa using hacc 0 l (by omega) (by simp)
      have ihh := ih (idx + 1) k2 lk
        (fun i l2 hi hl2 => by
          have hres := hacc (i + 1) l2 (by omega) (by simpa using hl2)
          have e : idx + 1 + i = idx + (i + 1) := by omega
          rw [e]; exact hres)
        (by simpa using hk)
        (by
          have e : idx + 1 + k2 = idx + (k2 + 1) := by omega
          rw [e]; exact hfk)
      have e2 : idx + (k2 + 1) + 1 = idx + 1 + k2 + 1 := by omega
      simp only [submitSeq, h0, if_true, ihh, List.take_succ_cons, List.map_cons, e2]

theorem recordLogs_shape (envTs : Int) (payload : String) (l : Log)
    (h : l ∈ recordLogs envTs payload) :
    (∃ ms, l.timestamp = formatTimestamp ms) ∧ l.level = "info" := by
  unfold recordLogs at h
  cases hc : (parseJson payload).bind parseCloudwatch with
  | none =>
    rw [hc] at h
    simp only [List.mem_singleton] at h
    rw [h]
    exact ⟨⟨envTs, rfl⟩, rfl⟩
  | some cw =>
    rw [hc] at h
    simp only [List.mem_map] at h
    obtain ⟨e, _, he⟩ := h
    rw [← he]
    exact ⟨⟨e.timestamp, rfl⟩, rfl⟩

theorem runRecords_mem (inflate : String → Option String) (sink : Nat → Nat → Log → Bool)
    (pid : Nat) (ts : Int) :
    ∀ (rs : List FirehoseRecord) (idx : Nat) (x : Nat × Log),
      x ∈ (runRecords inflate sink pid ts rs idx).1 →
      (∃ ms, x.2.timestamp = formatTimestamp ms) ∧ x.2.level = "info" := by
  intro rs
  induction rs with
  | nil =>
    intro idx x hx
    simp [runRecords] at hx
  | cons r rs ih =>
    intro idx x hx
    cases hd : base64Decode r.data with
    | none => simp [runRecords, hd] at hx
    | some d =>
      cases hw : workingPayload inflate d with
      | none => simp [runRecords, hd, hw] at hx
      | some p =>
        simp only [runRecords, hd, hw] at hx
        cases hok : (submitSeq sink pid idx (recordLogs ts p)).2.2 with
        | true =>
          simp only [hok, if_true] at hx
          rcases List.mem_append.mp hx with h | h
          · exact recordLogs_shape ts p x.2 (submitSeq_mem sink pid _ idx x h)
          · exact ih _ x h
        | false =>
          simp only [hok, Bool.false_eq_true, if_false] at hx
          exact recordLogs_shape ts p x.2 (submitSeq_mem sink pid _ idx x hx)

theorem runRecords_all (inflate : String → Option String) (sink : Nat → Nat → Log → Bool)
    (pid : Nat) (ts : Int) (hsink : ∀ q i l, sink q i l = true) :
    ∀ (rs : List FirehoseRecord) (idx : Nat),
      (∀ r ∈ rs, (payloadText inflate r).isSome) →
      runRecords inflate sink pid ts rs idx =
        (((rs.map (fun r =>
            match payloadText inflate r with
            | some p => recordLogs ts p
            | none => [])).flatten).map (fun l => (pid, l)), none) := by
  intro rs
  induction rs with
  | nil => intro idx _; simp [runRecords]
  | cons r rs ih =>
    intro idx hdec
    have hr : (payloadText inflate r).isSome := hdec r (by simp)
    obtain ⟨p, hp⟩ := Option.isSome_iff_exists.mp hr
    obtain ⟨d, hd, hw⟩ := Option.bind_eq_some.mp hp
    have hsub := submitSeq_ofAll sink pid (recordLogs ts p) idx
      (fun i l _ => hsink pid (idx + i) l)
    have ihh := ih (idx + (recordLogs ts p).length)
      (fun r2 h2 => hdec r2 (List.mem_cons_of_mem _ h2))
    simp only [runRecords, hd, hw, hsub, ihh, hp, List.map_cons, List.flatten_cons,
      List.map_append, if_true]

theorem runRecords_fail (inflate : String → Option String) (sink : Nat → Nat → Log → Bool)
    (pid : Nat) (ts : Int) :
    ∀ (rs : List FirehoseRecord) (idx k : Nat) (lk : Log) (full : List Log),
      full = (rs.map (fun r =>
          match payloadText inflate r with
          | some p => recordLogs ts p
          | none => [])).flatten →
      (∀ r ∈ rs, (payloadText inflate r).isSome) →
      (∀ i l, i < k → full[i]? = some l → sink pid (idx + i) l = true) →
      full[k]? = some lk → sink pid (idx + k) lk = false →
      runRecords inflate sink pid ts rs idx =
        ((full.take (k + 1)).map (fun l => (pid, l)), some .sinkSubmit) := by
  intro rs
  induction rs with
  | nil =>
    intro idx k lk full hfull hdec hacc hk hfk
    rw [hfull] at hk
    simp at hk
  | cons r rs ih =>
    intro idx k lk full hfull hdec hacc hk hfk
    have hr : (payloadText inflate r).isSome := hdec r (by simp)
    obtain ⟨p, hp⟩ := Option.isSome_iff_exists.mp hr
    obtain ⟨d, hd, hw⟩ := Option.bind_eq_some.mp hp
    have hfull2 : full = recordLogs ts p ++ (rs.map (fun r2 =>
        match payloadText inflate r2 with
        | some p2 => recordLogs ts p2
        | none => [])).flatten := by
      rw [hfull]
      simp [hp]
    by_cases hkL : k < (recordLogs ts p).length
    · have hkg : (recordLogs ts p)[k]? = some lk := by
        rw [hfull2, List.getElem?_append, if_pos hkL] at hk
        exact hk
      have haccL : ∀ i l, i < k → (recordLogs ts p)[i]? = some l →
          sink pid (idx + i) l = true := by
        intro i l hi hl
        apply hacc i l hi
        rw [hfull2, List.getElem?_append, if_pos (by omega)]
        exact hl
      have hsub := submitSeq_fail sink pid (recordLogs ts p) idx k lk haccL hkg hfk
      have e : full.take (k + 1) = (recordLogs ts p).take (k + 1) := by
        rw [hfull2, List.take_append_eq_append_take, Nat.sub_eq_zero_of_le (by omega),
          List.take_zero, List.append_nil]
      simp only [runRecords, hd, hw, hsub, Bool.false_eq_true, if_false, e]
    · have hsubAll := submitSeq_ofAll sink pid (recordLogs ts p) idx
        (fun i l hl => by
          have hilen : i < (recordLogs ts p).length := by
            by_contra hcon
            rw [List.getElem?_eq_none (by omega)] at hl
            exact Option.noConfusion hl
          apply hacc i l (by omega)
          rw [hfull2, List.getElem?_append, if_pos hilen]
          exact hl)
      have hk2 : ((rs.map (fun r2 =>
          match payloadText inflate r2 with
          | some p2 => recordLogs ts p2
          | none => [])).flatten)[k - (recordLogs ts p).length]? = some lk := by
        rw [hfull2, List.getElem?_append, if_neg hkL] at hk
        exact hk
      have hfk2 : sink pid (idx + (recordLogs ts p).length +
          (k - (recordLogs ts p).length)) lk = false := by
        have e : idx + (recordLogs ts p).length + (k - (recordLogs ts p).length) =
            idx + k := by omega
        rw [e]
        exact hfk
      have hacc2 : ∀ i l, i < k - (recordLogs ts p).length →
          ((rs.map (fun r2 =>
            match payloadText inflate r2 with
            | some p2 => recordLogs ts p2
            | none => [])).flatten)[i]? = some l →
          sink pid (idx + (recordLogs ts p).length + i) l = true := by
        intro i l hi hl
        have e : idx + (recordLogs ts p).length + i = idx + ((recordLogs ts p).length + i) := by
          omega
        rw [e]
        apply hacc ((recordLogs ts p).length + i) l (by omega)
        rw [hfull2, List.getElem?_append, if_neg (by omega), Nat.add_sub_cancel_left]
        exact hl
      have ihh := ih (idx + (recordLogs ts p).length) (k - (recordLogs ts p).length) lk _
        rfl (fun r2 h2 => hdec r2 (List.mem_cons_of_mem _ h2)) hacc2 hk2 hfk2
      have e2 : full.take (k + 1) = recordLogs ts p ++
          (((rs.map (fun r2 =>
            match payloadText inflate r2 with
            | some p2 => recordLogs ts p2
            | none => [])).flatten).take (k - (recordLogs ts p).length + 1)) := by
        rw [hfull2, List.take_append_eq_append_take,
          List.take_of_length_le (by omega)]
        congr 2
        omega
      simp only [runRecords, hd, hw, hsubAll, if_true, ihh, e2, List.map_append]

theorem handleJSONLog_calls (fv : String → Option Nat) (sink : Nat → Nat → Log → Bool)
    (ph sh body : String) (j : Json) (lg0 : Log) (m : List (String × Json)) (pid : Nat)
    (hb : parseJson body = some j) (hl : parseHLog j = some lg0)
    (hm : jsonToMap j = some m) (hfv : fv ph = some pid) :
    (handleJSONLog fv sink ph sh body).2 =
      [(pid, { lg0 with attributes := setAttr (harvest lg0.attributes m) serviceNameKey sh })] := by
  simp only [handleJSONLog, hb, hl, hm, hfv]
  split <;> rfl

/-- C1 (amended).  Drain-B harvests every top-level body field under the
coercion: a string value is copied, a number value is rendered in Go shortest
scientific E notation by the float64 arm (encoding/json decodes all JSON
numbers as float64, so the int64 arm of the switch is unreachable), and other
values are dropped; the example body yields message "hello", level "warn" and
attributes count = "3E+00". -/
theorem drainB_harvest_coercion :
    (∀ (j : Json) (m : List (String × Json)) (k : String),
      jsonToMap j = some m →
      getAttr (harvest [] m) k = (lookupJ m k).bind coerceValue) ∧
    (∀ (fv : String → Option Nat) (sink : Nat → Nat → Log → Bool) (ph sh : String)
      (pid : Nat),
      fv ph = some pid →
      (∀ q i l, sink q i l = true) →
      handleJSONLog fv sink ph sh
          "\x7b\"message\":\"hello\",\"level\":\"warn\",\"count\":3\x7d" =
        (.ok,
          [(pid,
            { message := "hello", timestamp := "", level := "warn",
              attributes := [("message", "hello"), ("level", "warn"), ("count", "3E+00"),
                (serviceNameKey, sh)] })])) := by
  constructor
  · intro j m k hj
    rw [harvest_getAttr m [] k (jsonToMap_nodup j m hj)]
    cases hv : lookupJ m k with
    | none => simp [getAttr]
    | some v =>
      cases hc : coerceValue v with
      | none => simp [hc, getAttr]
      | some s => simp [hc]
  · intro fv sink ph sh pid hfv hsink
    have hb : parseJson "\x7b\"message\":\"hello\",\"level\":\"warn\",\"count\":3\x7d" =
        some (.obj [("message", .str "hello"), ("level", .str "warn"), ("count", .num 3)]) := rfl
    have hl : parseHLog (.obj [("message", .str "hello"), ("level", .str "warn"),
        ("count", .num 3)]) = some { message := "hello", level := "warn" } := rfl
    have hm : jsonToMap (.obj [("message", .str "hello"), ("level", .str "warn"),
        ("count", .num 3)]) =
        some [("message", .str "hello"), ("level", .str "warn"), ("count", .num 3)] := rfl
    have hattrs : setAttr (harvest []
        [("message", Json.str "hello"), ("level", Json.str "warn"), ("count", Json.num 3)])
        serviceNameKey sh =
        [("message", "hello"), ("level", "warn"), ("count", "3E+00"), (serviceNameKey, sh)] := rfl
    simp only [handleJSONLog, hb, hl, hm, hfv, hattrs, hsink, eq_self_iff_true, if_true]

/-- C1 counterexample: on the spec round-trip body, the count attribute is
rendered "3E+00" (float64 scientific notation), not the base-10 "3" the claim
states. -/
theorem drainB_coercion_counterexample :
    (handleJSONLog (fun s => if s == "p" then some 7 else none) (fun _ _ _ => true) "p" ""
        "\x7b\"message\":\"hello\",\"level\":\"warn\",\"count\":3\x7d").2.map
      (fun c => getAttr c.2.attributes "count") = [some "3E+00"] ∧
    some "3E+00" ≠ some "3" := by
  constructor
  · rfl
  · decide

/-- C2 counterexample: Drain-B forwards the body as-is; the empty JSON object
with a valid tenant id yields a sink call whose record has empty message and
empty timestamp text while the request succeeds. -/
theorem drainB_empty_message_counterexample :
    (handleJSONLog (fun s => if s == "p" then some 7 else none) (fun _ _ _ => true) "p" ""
        "\x7b\x7d").2.map (fun c => c.2.message) = [""] ∧
    (handleJSONLog (fun s => if s == "p" then some 7 else none) (fun _ _ _ => true) "p" ""
        "\x7b\x7d").2.map (fun c => c.2.timestamp) = [""] ∧
    (handleJSONLog (fun s => if s == "p" then some 7 else none) (fun _ _ _ => true) "p" ""
        "\x7b\x7d").1 = .ok :=
  ⟨rfl, rfl, rfl⟩

/-- C8 (amended).  Drain-B sets the service.name attribute (the OpenTelemetry
semconv ServiceNameKey) to the service header value, overriding any
body-harvested value of that key; a body-harvested service_name attribute
(the underscore spelling, which the firehose drain uses) is left untouched. -/
theorem drainB_service_name_override (fv : String → Option Nat)
    (sink : Nat → Nat → Log → Bool) (ph sh body : String) (j : Json) (lg0 : Log)
    (m : List (String × Json)) (pid : Nat)
    (hb : parseJson body = some j) (hl : parseHLog j = some lg0)
    (hm : jsonToMap j = some m) (hfv : fv ph = some pid) :
    ((handleJSONLog fv sink ph sh body).2.map
        (fun c => getAttr c.2.attributes serviceNameKey) = [some sh]) ∧
    serviceNameKey ≠ "service_name" ∧
    (∀ s, lookupJ m "service_name" = some (.str s) →
      (handleJSONLog fv sink ph sh body).2.map
        (fun c => getAttr c.2.attributes "service_name") = [some s]) := by
  have hcalls := handleJSONLog_calls fv sink ph sh body j lg0 m pid hb hl hm hfv
  refine ⟨?_, by decide, ?_⟩
  · rw [hcalls]
    simp [getAttr_setAttr_self]
  · intro s hs
    rw [hcalls]
    simp only [List.map_cons, List.map_nil]
    rw [getAttr_setAttr_ne _ _ _ _ (by decide), parseHLog_attributes j lg0 hl,
      harvest_getAttr m [] "service_name" (jsonToMap_nodup j m hm), hs]
    rfl

/-- C8 counterexample: with body field service_name = "bodyval" and service
header "hdr", the submitted record keeps service_name = "bodyval" (the header
value lands under the distinct key service.name), so the claim that the
service_name attribute is overridden by the header fails. -/
theorem drainB_service_name_counterexample :
    (handleJSONLog (fun s => if s == "p" then some 7 else none) (fun _ _ _ => true) "p" "hdr"
        "\x7b\"service_name\":\"bodyval\"\x7d").2.map
      (fun c => getAttr c.2.attributes "service_name") = [some "bodyval"] ∧
    some "bodyval" ≠ some "hdr" := by
  constructor
  · rfl
  · decide

/-- C10.  The attributes of the record Drain-B submits are exactly the body
harvest with the service.name key set from the service header: the tenant
header influences routing only, and any two tenant header values that decode
produce the same attribute map. -/
theorem drainB_attribute_provenance (fv : String → Option Nat)
    (sink : Nat → Nat → Log → Bool) (ph sh body : String) (j : Json) (lg0 : Log)
    (m : List (String × Json)) (pid : Nat)
    (hb : parseJson body = some j) (hl : parseHLog j = some lg0)
    (hm : jsonToMap j = some m) (hfv : fv ph = some pid) :
    ((handleJSONLog fv sink ph sh body).2.map (fun c => c.2.attributes) =
      [setAttr (harvest [] m) serviceNameKey sh]) ∧
    (∀ ph2 pid2, fv ph2 = some pid2 →
      (handleJSONLog fv sink ph2 sh body).2.map (fun c => c.2.attributes) =
        [setAttr (harvest [] m) serviceNameKey sh]) := by
  have key : ∀ ph3 pid3, fv ph3 = some pid3 →
      (handleJSONLog fv sink ph3 sh body).2.map (fun c => c.2.attributes) =
        [setAttr (harvest [] m) serviceNameKey sh] := by
    intro ph3 pid3 hfv3
    rw [handleJSONLog_calls fv sink ph3 sh body j lg0 m pid3 hb hl hm hfv3]
    simp [parseHLog_attributes j lg0 hl]
  exact ⟨key ph pid hfv, key⟩

theorem handleFirehoseLog_run (inflate : String → Option String)
    (fv : String → Option Nat) (sink : Nat → Nat → Log → Bool)
    (freshId : String) (now : Int) (ce ah body : String)
    (jb : Json) (env : FirehoseEnvelope) (ja : Json) (pidStr : String) (pid : Nat)
    (hce : (ce == "gzip") = false)
    (hb : parseJson body = some jb) (he : parseFirehoseEnvelope jb = some env)
    (hj : parseJson ah = some ja) (hpa : parseCommonAttrs ja = some pidStr)
    (hfv : fv pidStr = some pid) :
    handleFirehoseLog inflate fv sink freshId now ce ah body =
      (match (runRecords inflate sink pid env.timestamp env.records 0).2 with
       | some e => (.error e, (runRecords inflate sink pid env.timestamp env.records 0).1)
       | none => (.ok (if env.requestId == "" then freshId else env.requestId) now,
           (runRecords inflate sink pid env.timestamp env.records 0).1)) := by
  simp only [handleFirehoseLog, hce, Bool.false_eq_true, if_false, hb, Option.some_bind,
    he, hj, hpa, hfv]

/-- C2 (amended).  Every record Drain-A hands to the sink carries a timestamp
produced by the fixed instant rendering (of either the event or the envelope
clock) and the level "info"; non-empty message text is not guaranteed by
either drain, and Drain-B forwards body-supplied message and timestamp text
unvalidated. -/
theorem drainA_sink_record_wellformed (inflate : String → Option String)
    (fromVerboseID : String → Option Nat) (sink : Nat → Nat → Log → Bool)
    (freshId : String) (now : Int) (contentEncoding attrsHeader body : String)
    (x : Nat × Log)
    (hx : x ∈ (handleFirehoseLog inflate fromVerboseID sink freshId now contentEncoding
        attrsHeader body).2) :
    (∃ ms, x.2.timestamp = formatTimestamp ms) ∧ x.2.level = "info" := by
  simp only [handleFirehoseLog] at hx
  repeat' split at hx
  all_goals first
    | exact absurd hx (List.not_mem_nil x)
    | exact runRecords_mem _ _ _ _ _ _ x hx

/-- C3.  When every record of a firehose batch decodes to a cloudwatch
sub-envelope with a non-empty event list and the sink accepts everything, the
handler answers 200 and the submitted records are exactly the events of each
record in original batch and event order; in particular their number is the
sum of the logEvents lengths. -/
theorem drainA_fanout_count (inflate : String → Option String)
    (fv : String → Option Nat) (sink : Nat → Nat → Log → Bool)
    (freshId : String) (now : Int) (ce ah body : String)
    (jb : Json) (env : FirehoseEnvelope) (ja : Json) (pidStr : String) (pid : Nat)
    (hce : (ce == "gzip") = false)
    (hb : parseJson body = some jb) (he : parseFirehoseEnvelope jb = some env)
    (hj : parseJson ah = some ja) (hpa : parseCommonAttrs ja = some pidStr)
    (hfv : fv pidStr = some pid)
    (hsink : ∀ q i l, sink q i l = true)
    (hdec : ∀ r ∈ env.records, ∃ p cw, payloadText inflate r = some p ∧
        (parseJson p).bind parseCloudwatch = some cw ∧ cw.logEvents ≠ []) :
    (handleFirehoseLog inflate fv sink freshId now ce ah body).1 =
      .ok (if env.requestId == "" then freshId else env.requestId) now ∧
    (handleFirehoseLog inflate fv sink freshId now ce ah body).2 =
      ((env.records.map (fun r =>
          match (payloadText inflate r).bind
              (fun p => (parseJson p).bind parseCloudwatch) with
          | some cw => cw.logEvents.map (fun e =>
              ({ message := e.message, timestamp := formatTimestamp e.timestamp,
                 level := "info", attributes := firehoseAttrs cw } : Log))
          | none => [])).flatten).map (fun l => (pid, l)) ∧
    (handleFirehoseLog inflate fv sink freshId now ce ah body).2.length =
      (env.records.map (fun r =>
          match (payloadText inflate r).bind
              (fun p => (parseJson p).bind parseCloudwatch) with
          | some cw => cw.logEvents.length
          | none => 0)).sum := by
  have hrun := handleFirehoseLog_run inflate fv sink freshId now ce ah body jb env ja
    pidStr pid hce hb he hj hpa hfv
  have hdec2 : ∀ r ∈ env.records, (payloadText inflate r).isSome := by
    intro r hr
    obtain ⟨p, cw, hp, _, _⟩ := hdec r hr
    rw [hp]; rfl
  have hall := runRecords_all inflate sink pid env.timestamp hsink env.records 0 hdec2
  have hpt : ∀ r ∈ env.records,
      (match payloadText inflate r with
       | some p => recordLogs env.timestamp p
       | none => []) =
      (match (payloadText inflate r).bind (fun p => (parseJson p).bind parseCloudwatch) with
       | some cw => cw.logEvents.map (fun e =>
          ({ message := e.message, timestamp := formatTimestamp e.timestamp,
             level := "info", attributes := firehoseAttrs cw } : Log))
       | none => []) := by
    intro r hr
    obtain ⟨p, cw, hp, hcw, _⟩ := hdec r hr
    rw [hp]
    simp only [Option.some_bind, hcw, recordLogs]
  refine ⟨?_, ?_, ?_⟩
  · simp only [hrun, hall]
  · simp only [hrun, hall]
    rw [List.map_congr_left hpt]
  · simp only [hrun, hall]
    rw [List.length_map, List.length_flatten, List.map_map]
    have hlen : ∀ r ∈ env.records,
        (List.length ∘ fun r2 =>
          match payloadText inflate r2 with
          | some p => recordLogs env.timestamp p
          | none => []) r =
        (match (payloadText inflate r).bind (fun p => (parseJson p).bind parseCloudwatch) with
         | some cw => cw.logEvents.length
         | none => 0) := by
      intro r hr
      obtain ⟨p, cw, hp, hcw, _⟩ := hdec r hr
      simp only [Function.comp_apply, hp, Option.some_bind, hcw, recordLogs, List.length_map]
    rw [List.map_congr_left hlen]

/-- C6.  When every record of a firehose batch passes base64 decoding and the
decompression sniff and the sink accepts everything, the submitted records
are, per batch record: exactly one raw record whose message is the working
payload text, whose timestamp renders the envelope clock, level "info" and no
attributes, when the payload does not decode as a cloudwatch sub-envelope;
and the per-event records otherwise (mixed batches supported). -/
theorem drainA_raw_fallback (inflate : String → Option String)
    (fv : String → Option Nat) (sink : Nat → Nat → Log → Bool)
    (freshId : String) (now : Int) (ce ah body : String)
    (jb : Json) (env : FirehoseEnvelope) (ja : Json) (pidStr : String) (pid : Nat)
    (hce : (ce == "gzip") = false)
    (hb : parseJson body = some jb) (he : parseFirehoseEnvelope jb = some env)
    (hj : parseJson ah = some ja) (hpa : parseCommonAttrs ja = some pidStr)
    (hfv : fv pidStr = some pid)
    (hsink : ∀ q i l, sink q i l = true)
    (hdec : ∀ r ∈ env.records, (payloadText inflate r).isSome) :
    (handleFirehoseLog inflate fv sink freshId now ce ah body).1 =
      .ok (if env.requestId == "" then freshId else env.requestId) now ∧
    (handleFirehoseLog inflate fv sink freshId now ce ah body).2 =
      ((env.records.map (fun r =>
          match payloadText inflate r with
          | none => []
          | some p =>
            match (parseJson p).bind parseCloudwatch with
            | none =>
              [({ message := p, timestamp := formatTimestamp env.timestamp,
                  level := "info", attributes := [] } : Log)]
            | some cw => cw.logEvents.map (fun e =>
                ({ message := e.message, timestamp := formatTimestamp e.timestamp,
                   level := "info", attributes := firehoseAttrs cw } : Log)))).flatten).map
        (fun l => (pid, l)) := by
  have hrun := handleFirehoseLog_run inflate fv sink freshId now ce ah body jb env ja
    pidStr pid hce hb he hj hpa hfv
  have hall := runRecords_all inflate sink pid env.timestamp hsink env.records 0 hdec
  have hpt : ∀ r ∈ env.records,
      (match payloadText inflate r with
       | some p => recordLogs env.timestamp p
       | none => []) =
      (match payloadText inflate r with
       | none => []
       | some p =>
         match (parseJson p).bind parseCloudwatch with
         | none =>
           [({ message := p, timestamp := formatTimestamp env.timestamp,
               level := "info", attributes := [] } : Log)]
         | some cw => cw.logEvents.map (fun e =>
             ({ message := e.message, timestamp := formatTimestamp e.timestamp,
                level := "info", attributes := firehoseAttrs cw } : Log))) := by
    intro r _
    cases payloadText inflate r with
    | none => rfl
    | some p => rfl
  exact ⟨by simp only [hrun, hall], by simp only [hrun, hall]; rw [List.map_congr_left hpt]⟩

/-- C7 (amended).  A successful firehose response echoes the envelope's
requestId when it is non-empty; when the requestId is absent or supplied as
the empty string, the response carries the freshly generated identifier
(non-empty whenever the generator's output is), together with the
acknowledgement clock value. -/
theorem drainA_request_id_echo (inflate : String → Option String)
    (fv : String → Option Nat) (sink : Nat → Nat → Log → Bool)
    (freshId : String) (now : Int) (ce ah body : String)
    (jb : Json) (env : FirehoseEnvelope)
    (hce : (ce == "gzip") = false)
    (hb : parseJson body = some jb) (he : parseFirehoseEnvelope jb = some env) :
    ∀ rid t, (handleFirehoseLog inflate fv sink freshId now ce ah body).1 = .ok rid t →
      rid = (if env.requestId == "" then freshId else env.requestId) ∧ t = now := by
  intro rid t h
  simp only [handleFirehoseLog, hce, Bool.false_eq_true, if_false, hb, Option.some_bind,
    he] at h
  generalize hq : (if (env.requestId == "") = true then freshId else env.requestId) = rid0
    at h ⊢
  repeat' split at h
  all_goals first
    | exact absurd h (fun hcon => FirehoseResult.noConfusion hcon)
    | (simp only [FirehoseResult.ok.injEq] at h
       exact ⟨h.1.symm, h.2.symm⟩)

/-- C7 counterexample: an envelope that explicitly supplies the empty string
as requestId is answered with the freshly generated identifier, not an echo
of the supplied value. -/
theorem drainA_request_id_counterexample :
    handleFirehoseLog (fun _ => none) (fun s => if s == "p" then some 7 else none)
        (fun _ _ _ => true) "F" 5 ""
        "\x7b\"commonAttributes\":\x7b\"x-highlight-project\":\"p\"\x7d\x7d"
        "\x7b\"requestId\":\"\",\"timestamp\":0,\"records\":[]\x7d" =
      (.ok "F" 5, []) ∧ ("F" : String) ≠ "" := by
  constructor
  · rfl
  · decide

/-- C4.  On either drain, when the tenant identifier is missing or fails to
decode the request is answered with an error (HTTP 400 at every error site)
and no sink-submit call is made. -/
theorem tenant_reject_both_drains :
    (∀ (inflate : String → Option String) (fv : String → Option Nat)
        (sink : Nat → Nat → Log → Bool) (freshId : String) (now : Int) (ce ah body : String),
      ((parseJson ah).bind parseCommonAttrs).bind fv = none →
      (∃ e, (handleFirehoseLog inflate fv sink freshId now ce ah body).1 = .error e) ∧
      (handleFirehoseLog inflate fv sink freshId now ce ah body).2 = []) ∧
    (∀ (fv : String → Option Nat) (sink : Nat → Nat → Log → Bool) (ph sh body : String),
      fv ph = none →
      (∃ e, (handleJSONLog fv sink ph sh body).1 = .error e) ∧
      (handleJSONLog fv sink ph sh body).2 = []) := by
  constructor
  · intro inflate fv sink freshId now ce ah body htn
    cases hbo : (if (ce == "gzip") = true then
        match gzipHeaderRest (stringToBytes body) with
        | none => none
        | some rest => inflate (bytesToString rest)
      else some body) with
    | none =>
      simp only [handleFirehoseLog, hbo]
      exact ⟨⟨.outerGzip, rfl⟩, trivial⟩
    | some body2 =>
      cases hpe : (parseJson body2).bind parseFirehoseEnvelope with
      | none =>
        simp only [handleFirehoseLog, hbo, hpe]
        exact ⟨⟨.envelopeJson, rfl⟩, trivial⟩
      | some env =>
        cases hja : parseJson ah with
        | none =>
          simp only [handleFirehoseLog, hbo, hpe, hja]
          exact ⟨⟨.attrsJson, rfl⟩, trivial⟩
        | some ja =>
          cases hpa : parseCommonAttrs ja with
          | none =>
            simp only [handleFirehoseLog, hbo, hpe, hja, hpa]
            exact ⟨⟨.attrsJson, rfl⟩, trivial⟩
          | some pidStr =>
            rw [hja, Option.some_bind, hpa, Option.some_bind] at htn
            simp only [handleFirehoseLog, hbo, hpe, hja, hpa, htn]
            exact ⟨⟨.tenantId, rfl⟩, trivial⟩
  · intro fv sink ph sh body hfv
    cases hb : parseJson body with
    | none =>
      simp only [handleJSONLog, hb]
      exact ⟨⟨.bodyJson, rfl⟩, trivial⟩
    | some j =>
      cases hl : parseHLog j with
      | none =>
        simp only [handleJSONLog, hb, hl]
        exact ⟨⟨.bodyJson, rfl⟩, trivial⟩
      | some lg0 =>
        cases hm : jsonToMap j with
        | none =>
          simp only [handleJSONLog, hb, hl, hm]
          exact ⟨⟨.bodyJson, rfl⟩, trivial⟩
        | some m =>
          simp only [handleJSONLog, hb, hl, hm, hfv]
          exact ⟨⟨.tenantId, rfl⟩, trivial⟩

/-- C5.  Firehose records are submitted as they are produced: when the sink
rejects the call at position k (all earlier calls accepted), the calls made
are exactly the first k+1 produced records, in order, and the request ends in
the submit error; and a decode failure in a later batch record does not undo
the submissions already made for earlier records (streaming, not buffered). -/
theorem drainA_streaming_abort :
    (∀ (inflate : String → Option String) (fv : String → Option Nat)
        (sink : Nat → Nat → Log → Bool) (freshId : String) (now : Int)
        (ce ah body : String) (jb ja : Json) (env : FirehoseEnvelope)
        (pidStr : String) (pid k : Nat) (lk : Log),
      (ce == "gzip") = false → parseJson body = some jb →
      parseFirehoseEnvelope jb = some env → parseJson ah = some ja →
      parseCommonAttrs ja = some pidStr → fv pidStr = some pid →
      (∀ r ∈ env.records, (payloadText inflate r).isSome) →
      (∀ i l, i < k →
        ((env.records.map (fun r =>
            match payloadText inflate r with
            | some p => recordLogs env.timestamp p
            | none => [])).flatten)[i]? = some l → sink pid i l = true) →
      ((env.records.map (fun r =>
          match payloadText inflate r with
          | some p => recordLogs env.timestamp p
          | none => [])).flatten)[k]? = some lk →
      sink pid k lk = false →
      handleFirehoseLog inflate fv sink freshId now ce ah body =
        (.error .sinkSubmit,
          ((((env.records.map (fun r =>
              match payloadText inflate r with
              | some p => recordLogs env.timestamp p
              | none => [])).flatten).take (k + 1)).map (fun l => (pid, l))))) ∧
    (∀ (inflate : String → Option String) (fv : String → Option Nat)
        (sink : Nat → Nat → Log → Bool) (freshId : String) (now : Int)
        (ce ah body : String) (jb ja : Json) (env : FirehoseEnvelope)
        (pidStr : String) (pid : Nat) (r1 r2 : FirehoseRecord) (p1 : String),
      (ce == "gzip") = false → parseJson body = some jb →
      parseFirehoseEnvelope jb = some env → parseJson ah = some ja →
      parseCommonAttrs ja = some pidStr → fv pidStr = some pid →
      env.records = [r1, r2] →
      payloadText inflate r1 = some p1 →
      base64Decode r2.data = none →
      (∀ q i l, sink q i l = true) →
      handleFirehoseLog inflate fv sink freshId now ce ah body =
        (.error .recordBase64,
          (recordLogs env.timestamp p1).map (fun l => (pid, l)))) := by
  constructor
  · intro inflate fv sink freshId now ce ah body jb ja env pidStr pid k lk
      hce hb he hj hpa hfv hdec hacc hk hfk
    have hacc0 : ∀ i l, i < k →
        ((env.records.map (fun r =>
            match payloadText inflate r with
            | some p => recordLogs env.timestamp p
            | none => [])).flatten)[i]? = some l → sink pid (0 + i) l = true := by
      intro i l hi hl
      rw [Nat.zero_add]
      exact hacc i l hi hl
    have hfk0 : sink pid (0 + k) lk = false := by
      rw [Nat.zero_add]; exact hfk
    have hfail := runRecords_fail inflate sink pid env.timestamp env.records 0 k lk _
      rfl hdec hacc0 hk hfk0
    rw [handleFirehoseLog_run inflate fv sink freshId now ce ah body jb env ja pidStr pid
      hce hb he hj hpa hfv, hfail]
  · intro inflate fv sink freshId now ce ah body jb ja env pidStr pid r1 r2 p1
      hce hb he hj hpa hfv hrecs hp1 hd2 hsink
    have hrr : runRecords inflate sink pid env.timestamp [r1, r2] 0 =
        ((recordLogs env.timestamp p1).map (fun l => (pid, l)), some .recordBase64) := by
      obtain ⟨d1, hd1, hw1⟩ := Option.bind_eq_some.mp hp1
      have hsub := submitSeq_ofAll sink pid (recordLogs env.timestamp p1) 0
        (fun i l _ => hsink pid (0 + i) l)
      simp only [runRecords, hd1, hw1, hsub, eq_self_iff_true, if_true, hd2,
        List.append_nil]
    rw [handleFirehoseLog_run inflate fv sink freshId now ce ah body jb env ja pidStr pid
      hce hb he hj hpa hfv, hrecs, hrr]

/-- C9.  Per firehose record, a payload whose bytes carry a valid gzip member
header but whose compressed stream the DEFLATE decoder rejects fails the whole
request with the record-decompression error and nothing is submitted for it;
the raw-bytes fallback is taken exactly when the header scan rejects the bytes
(not recognized as gzip), in which case the raw payload becomes the single
submitted record when it is not a cloudwatch document. -/
theorem drainA_gzip_dichotomy :
    (∀ (inflate : String → Option String) (fv : String → Option Nat)
        (sink : Nat → Nat → Log → Bool) (freshId : String) (now : Int)
        (ce ah body : String) (jb ja : Json) (env : FirehoseEnvelope)
        (pidStr : String) (pid : Nat) (r : FirehoseRecord) (d : String)
        (rest : List Nat),
      (ce == "gzip") = false → parseJson body = some jb →
      parseFirehoseEnvelope jb = some env → parseJson ah = some ja →
      parseCommonAttrs ja = some pidStr → fv pidStr = some pid →
      env.records = [r] → base64Decode r.data = some d →
      gzipHeaderRest (stringToBytes d) = some rest →
      inflate (bytesToString rest) = none →
      handleFirehoseLog inflate fv sink freshId now ce ah body =
        (.error .recordGzip, [])) ∧
    (∀ (inflate : String → Option String) (fv : String → Option Nat)
        (sink : Nat → Nat → Log → Bool) (freshId : String) (now : Int)
        (ce ah body : String) (jb ja : Json) (env : FirehoseEnvelope)
        (pidStr : String) (pid : Nat) (r : FirehoseRecord) (d : String),
      (ce == "gzip") = false → parseJson body = some jb →
      parseFirehoseEnvelope jb = some env → parseJson ah = some ja →
      parseCommonAttrs ja = some pidStr → fv pidStr = some pid →
      env.records = [r] → base64Decode r.data = some d →
      gzipHeaderRest (stringToBytes d) = none →
      (parseJson d).bind parseCloudwatch = none →
      (∀ q i l, sink q i l = true) →
      handleFirehoseLog inflate fv sink freshId now ce ah body =
        (.ok (if env.requestId == "" then freshId else env.requestId) now,
          [(pid, { message := d, timestamp := formatTimestamp env.timestamp,
                   level := "info", attributes := [] })])) := by
  constructor
  · intro inflate fv sink freshId now ce ah body jb ja env pidStr pid r d rest
      hce hb he hj hpa hfv hrecs hd hgz hinf
    have hwp : workingPayload inflate d = none := by
      simp only [workingPayload, hgz, hinf]
    have hrr : runRecords inflate sink pid env.timestamp [r] 0 =
        ([], some .recordGzip) := by
      simp only [runRecords, hd, hwp]
    rw [handleFirehoseLog_run inflate fv sink freshId now ce ah body jb env ja pidStr pid
      hce hb he hj hpa hfv, hrecs, hrr]
  · intro inflate fv sink freshId now ce ah body jb ja env pidStr pid r d
      hce hb he hj hpa hfv hrecs hd hgz hsniff hsink
    have hwp : workingPayload inflate d = some d := by
      simp only [workingPayload, hgz]
    have hrl : recordLogs env.timestamp d =
        [{ message := d, timestamp := formatTimestamp env.timestamp,
           level := "info", attributes := [] }] := by
      simp only [recordLogs, hsniff]
    have hsub := submitSeq_ofAll sink pid
      [({ message := d, timestamp := formatTimestamp env.timestamp,
          level := "info", attributes := [] } : Log)] 0
      (fun i l _ => hsink pid (0 + i) l)
    have hrr : runRecords inflate sink pid env.timestamp [r] 0 =
        ([(pid,
            { message := d, timestamp := formatTimestamp env.timestamp,
              level := "info", attributes := [] })], none) := by
      simp only [runRecords, hd, hwp, hrl, hsub, eq_self_iff_true, if_true,
        List.append_nil, List.map_cons, List.map_nil]
    rw [handleFirehoseLog_run inflate fv sink freshId now ce ah body jb env ja pidStr pid
      hce hb he hj hpa hfv, hrecs, hrr]

theorem drainB_harvest_coercion_witness :
    (getAttr (harvest [] [("a", Json.num 3)]) "a" =
      (lookupJ [("a", Json.num 3)] "a").bind coerceValue) ∧
    handleJSONLog fvTest sinkAccept "p" "svc"
        "\x7b\"message\":\"hello\",\"level\":\"warn\",\"count\":3\x7d" =
      (.ok,
        [(7,
          { message := "hello", timestamp := "", level := "warn",
            attributes := [("message", "hello"), ("level", "warn"), ("count", "3E+00"),
              (serviceNameKey, "svc")] })]) :=
  ⟨drainB_harvest_coercion.1 (Json.obj [("a", Json.num 3)]) [("a", Json.num 3)] "a" rfl,
   drainB_harvest_coercion.2 fvTest sinkAccept "p" "svc" 7 rfl (fun _ _ _ => rfl)⟩

theorem tenant_reject_both_drains_witness :
    ((∃ e, (handleFirehoseLog inflateNone fvTest sinkAccept "F" 5 "" "" "\x7b\x7d").1 =
        .error e) ∧
      (handleFirehoseLog inflateNone fvTest sinkAccept "F" 5 "" "" "\x7b\x7d").2 = []) ∧
    ((∃ e, (handleJSONLog fvTest sinkAccept "" "" "\x7b\x7d").1 = .error e) ∧
      (handleJSONLog fvTest sinkAccept "" "" "\x7b\x7d").2 = []) :=
  ⟨tenant_reject_both_drains.1 inflateNone fvTest sinkAccept "F" 5 "" "" "\x7b\x7d" rfl,
   tenant_reject_both_drains.2 fvTest sinkAccept "" "" "\x7b\x7d" rfl⟩

theorem drainB_service_name_override_witness :
    ((handleJSONLog fvTest sinkAccept "p" "hdr"
        "\x7b\"service_name\":\"bodyval\"\x7d").2.map
      (fun c => getAttr c.2.attributes serviceNameKey) = [some "hdr"]) ∧
    serviceNameKey ≠ "service_name" ∧
    ((handleJSONLog fvTest sinkAccept "p" "hdr"
        "\x7b\"service_name\":\"bodyval\"\x7d").2.map
      (fun c => getAttr c.2.attributes "service_name") = [some "bodyval"]) := by
  have h := drainB_service_name_override fvTest sinkAccept "p" "hdr"
    "\x7b\"service_name\":\"bodyval\"\x7d"
    (Json.obj [("service_name", Json.str "bodyval")]) {}
    [("service_name", Json.str "bodyval")] 7 rfl rfl rfl rfl
  exact ⟨h.1, h.2.1, h.2.2 "bodyval" rfl⟩

theorem drainB_attribute_provenance_witness :
    ((handleJSONLog fvTest sinkAccept "p" "sv" "\x7b\"a\":\"1\"\x7d").2.map
        (fun c => c.2.attributes) =
      [setAttr (harvest [] [("a", Json.str "1")]) serviceNameKey "sv"]) ∧
    ((handleJSONLog fvTest sinkAccept "p" "sv" "\x7b\"a\":\"1\"\x7d").2.map
        (fun c => c.2.attributes) =
      [setAttr (harvest [] [("a", Json.str "1")]) serviceNameKey "sv"]) := by
  have h := drainB_attribute_provenance fvTest sinkAccept "p" "sv" "\x7b\"a\":\"1\"\x7d"
    (Json.obj [("a", Json.str "1")]) {} [("a", Json.str "1")] 7 rfl rfl rfl rfl
  exact ⟨h.1, h.2 "p" 7 rfl⟩

theorem drainA_sink_record_wellformed_witness :
    (∃ ms, ({ message := "hello", timestamp := formatTimestamp 1, level := "info",
              attributes := [] } : Log).timestamp = formatTimestamp ms) ∧
    ({ message := "hello", timestamp := formatTimestamp 1, level := "info",
       attributes := [] } : Log).level = "info" :=
  drainA_sink_record_wellformed inflateNone fvTest sinkAccept "F" 5 "" attrsHeaderTest
    "\x7b\"timestamp\":1,\"records\":[\x7b\"data\":\"aGVsbG8=\"\x7d]\x7d"
    (7, { message := "hello", timestamp := formatTimestamp 1, level := "info",
          attributes := [] })
    (by decide)

theorem drainA_fanout_count_witness :
    (handleFirehoseLog inflateNone fvTest sinkAccept "F" 5 "" attrsHeaderTest
      "\x7b\"timestamp\":1,\"records\":[\x7b\"data\":\"eyJsb2dFdmVudHMiOlt7Im1lc3NhZ2UiOiJhIn0seyJtZXNzYWdlIjoiYiJ9XX0=\"\x7d]\x7d").1 =
      .ok "F" 5 ∧
    (handleFirehoseLog inflateNone fvTest sinkAccept "F" 5 "" attrsHeaderTest
      "\x7b\"timestamp\":1,\"records\":[\x7b\"data\":\"eyJsb2dFdmVudHMiOlt7Im1lc3NhZ2UiOiJhIn0seyJtZXNzYWdlIjoiYiJ9XX0=\"\x7d]\x7d").2.length =
      2 := by
  have h := drainA_fanout_count inflateNone fvTest sinkAccept "F" 5 "" attrsHeaderTest
    "\x7b\"timestamp\":1,\"records\":[\x7b\"data\":\"eyJsb2dFdmVudHMiOlt7Im1lc3NhZ2UiOiJhIn0seyJtZXNzYWdlIjoiYiJ9XX0=\"\x7d]\x7d"
    (Json.obj [("timestamp", Json.num 1), ("records", Json.arr [Json.obj
      [("data", Json.str "eyJsb2dFdmVudHMiOlt7Im1lc3NhZ2UiOiJhIn0seyJtZXNzYWdlIjoiYiJ9XX0=")]])])
    { requestId := "", timestamp := 1,
      records := [{ data := "eyJsb2dFdmVudHMiOlt7Im1lc3NhZ2UiOiJhIn0seyJtZXNzYWdlIjoiYiJ9XX0=" }] }
    (Json.obj [("commonAttributes", Json.obj [("x-highlight-project", Json.str "p")])])
    "p" 7 rfl rfl rfl rfl rfl rfl (fun _ _ _ => rfl)
    (by
      intro r hr
      have hr2 : r = ({ data :=
          "eyJsb2dFdmVudHMiOlt7Im1lc3NhZ2UiOiJhIn0seyJtZXNzYWdlIjoiYiJ9XX0=" } :
          FirehoseRecord) := by
        simpa using hr
      subst hr2
      exact ⟨"\x7b\"logEvents\":[\x7b\"message\":\"a\"\x7d,\x7b\"message\":\"b\"\x7d]\x7d",
        { logEvents := [{ message := "a" }, { message := "b" }] }, rfl, rfl, by decide⟩)
  exact ⟨h.1.trans (by decide), h.2.2.trans (by decide)⟩

theorem drainA_raw_fallback_witness :
    (handleFirehoseLog inflateNone fvTest sinkAccept "F" 5 "" attrsHeaderTest
      "\x7b\"timestamp\":1,\"records\":[\x7b\"data\":\"aGVsbG8=\"\x7d]\x7d").1 =
      .ok "F" 5 ∧
    (handleFirehoseLog inflateNone fvTest sinkAccept "F" 5 "" attrsHeaderTest
      "\x7b\"timestamp\":1,\"records\":[\x7b\"data\":\"aGVsbG8=\"\x7d]\x7d").2 =
      [(7, { message := "hello", timestamp := formatTimestamp 1, level := "info",
             attributes := [] })] := by
  have h := drainA_raw_fallback inflateNone fvTest sinkAccept "F" 5 "" attrsHeaderTest
    "\x7b\"timestamp\":1,\"records\":[\x7b\"data\":\"aGVsbG8=\"\x7d]\x7d"
    (Json.obj [("timestamp", Json.num 1),
      ("records", Json.arr [Json.obj [("data", Json.str "aGVsbG8=")]])])
    { requestId := "", timestamp := 1, records := [{ data := "aGVsbG8=" }] }
    (Json.obj [("commonAttributes", Json.obj [("x-highlight-project", Json.str "p")])])
    "p" 7 rfl rfl rfl rfl rfl rfl (fun _ _ _ => rfl) (by decide)
  exact ⟨h.1.trans (by decide), h.2.trans (by decide)⟩

theorem drainA_streaming_abort_witness :
    handleFirehoseLog inflateNone fvTest sinkReject "F" 5 "" attrsHeaderTest
      "\x7b\"timestamp\":1,\"records\":[\x7b\"data\":\"aGVsbG8=\"\x7d]\x7d" =
      (.error .sinkSubmit,
        [(7, { message := "hello", timestamp := formatTimestamp 1, level := "info",
               attributes := [] })]) ∧
    handleFirehoseLog inflateNone fvTest sinkAccept "F" 5 "" attrsHeaderTest
      "\x7b\"timestamp\":1,\"records\":[\x7b\"data\":\"aGVsbG8=\"\x7d,\x7b\"data\":\"!\"\x7d]\x7d" =
      (.error .recordBase64,
        [(7, { message := "hello", timestamp := formatTimestamp 1, level := "info",
               attributes := [] })]) := by
  have h1 := drainA_streaming_abort.1 inflateNone fvTest sinkReject "F" 5 "" attrsHeaderTest
    "\x7b\"timestamp\":1,\"records\":[\x7b\"data\":\"aGVsbG8=\"\x7d]\x7d"
    (Json.obj [("timestamp", Json.num 1),
      ("records", Json.arr [Json.obj [("data", Json.str "aGVsbG8=")]])])
    (Json.obj [("commonAttributes", Json.obj [("x-highlight-project", Json.str "p")])])
    { requestId := "", timestamp := 1, records := [{ data := "aGVsbG8=" }] }
    "p" 7 0
    { message := "hello", timestamp := formatTimestamp 1, level := "info", attributes := [] }
    rfl rfl rfl rfl rfl rfl (by decide)
    (fun i l hi _ => absurd hi (Nat.not_lt_zero i)) rfl rfl
  have h2 := drainA_streaming_abort.2 inflateNone fvTest sinkAccept "F" 5 "" attrsHeaderTest
    "\x7b\"timestamp\":1,\"records\":[\x7b\"data\":\"aGVsbG8=\"\x7d,\x7b\"data\":\"!\"\x7d]\x7d"
    (Json.obj [("timestamp", Json.num 1),
      ("records", Json.arr [Json.obj [("data", Json.str "aGVsbG8=")],
        Json.obj [("data", Json.str "!")]])])
    (Json.obj [("commonAttributes", Json.obj [("x-highlight-project", Json.str "p")])])
    { requestId := "", timestamp := 1,
      records := [{ data := "aGVsbG8=" }, { data := "!" }] }
    "p" 7 { data := "aGVsbG8=" } { data := "!" } "hello"
    rfl rfl rfl rfl rfl rfl rfl rfl rfl (fun _ _ _ => rfl)
  exact ⟨h1.trans (by decide), h2.trans (by decide)⟩

theorem drainA_request_id_echo_witness :
    "R" = (if ({ requestId := "R", timestamp := 0, records := [] } :
          FirehoseEnvelope).requestId == "" then "F"
        else ({ requestId := "R", timestamp := 0, records := [] } :
          FirehoseEnvelope).requestId) ∧ (5 : Int) = 5 :=
  drainA_request_id_echo inflateNone fvTest sinkAccept "F" 5 "" attrsHeaderTest
    "\x7b\"requestId\":\"R\",\"timestamp\":0,\"records\":[]\x7d"
    (Json.obj [("requestId", Json.str "R"), ("timestamp", Json.num 0),
      ("records", Json.arr [])])
    { requestId := "R", timestamp := 0, records := [] }
    rfl rfl rfl "R" 5 rfl

theorem drainA_gzip_dichotomy_witness :
    handleFirehoseLog inflateNone fvTest sinkAccept "F" 5 "" attrsHeaderTest
      "\x7b\"timestamp\":1,\"records\":[\x7b\"data\":\"H4sIAAAAAAAAAA==\"\x7d]\x7d" =
      (.error .recordGzip, []) ∧
    handleFirehoseLog inflateNone fvTest sinkAccept "F" 5 "" attrsHeaderTest
      "\x7b\"timestamp\":1,\"records\":[\x7b\"data\":\"aGVsbG8=\"\x7d]\x7d" =
      (.ok "F" 5,
        [(7, { message := "hello", timestamp := formatTimestamp 1, level := "info",
               attributes := [] })]) := by
  have h1 := drainA_gzip_dichotomy.1 inflateNone fvTest sinkAccept "F" 5 "" attrsHeaderTest
    "\x7b\"timestamp\":1,\"records\":[\x7b\"data\":\"H4sIAAAAAAAAAA==\"\x7d]\x7d"
    (Json.obj [("timestamp", Json.num 1),
      ("records", Json.arr [Json.obj [("data", Json.str "H4sIAAAAAAAAAA==")]])])
    (Json.obj [("commonAttributes", Json.obj [("x-highlight-project", Json.str "p")])])
    { requestId := "", timestamp := 1, records := [{ data := "H4sIAAAAAAAAAA==" }] }
    "p" 7 { data := "H4sIAAAAAAAAAA==" }
    "\x1F\x8B\x08\x00\x00\x00\x00\x00\x00\x00" []
    rfl rfl rfl rfl rfl rfl rfl rfl rfl rfl
  have h2 := drainA_gzip_dichotomy.2 inflateNone fvTest sinkAccept "F" 5 "" attrsHeaderTest
    "\x7b\"timestamp\":1,\"records\":[\x7b\"data\":\"aGVsbG8=\"\x7d]\x7d"
    (Json.obj [("timestamp", Json.num 1),
      ("records", Json.arr [Json.obj [("data", Json.str "aGVsbG8=")]])])
    (Json.obj [("commonAttributes", Json.obj [("x-highlight-project", Json.str "p")])])
    { requestId := "", timestamp := 1, records := [{ data := "aGVsbG8=" }] }
    "p" 7 { data := "aGVsbG8=" } "hello"
    rfl rfl rfl rfl rfl rfl rfl rfl rfl rfl (fun _ _ _ => rfl)
  exact ⟨h1, h2.trans (by decide)⟩
